import Mathlib

/-!
# Verification of the watchdog-proxy poller core (src/functions/pollQueue.js)

Shallow embedding of the coordination core: the sliding-window rate limiter,
the time-budgeted poll loop, the fan-out dispatcher, the TTL execution lock
and the throttled heartbeat reporter.  Timestamps and durations are modelled
as `Int` milliseconds (JS numbers used integrally); `Math.floor(x / 1000)` is
`Int.fdiv x 1000`.  External collaborators (SQS receive results, per-dispatch
clock readings, invocation outcomes) are oracle parameters, constrained in
theorems only by their documented contracts (e.g. a receive returns at most
`MaxNumberOfMessages` messages).
-/

namespace WatchdogProxy

/-- A queue message envelope.  The core only ever parses the body and passes
the whole envelope through to the worker invocation, so the body is opaque
here; whether `JSON.parse(message.Body)` succeeds is an oracle predicate. -/
structure Message where
  body : String
deriving DecidableEq, Repr

/-- Line 162-163: `rateHits = rateHits.filter(item => item > rateWindowStart)`
with `rateWindowStart = Date.now() - RATE_PERIOD`.  Keeps exactly the hits
strictly newer than `now - ratePeriod`. -/
def slideRateWindow (rateHits : List Int) (now ratePeriod : Int) : List Int :=
  rateHits.filter (fun item => now - ratePeriod < item)

/-- Line 164: `MaxNumberOfMessages = RATE_LIMIT - rateHits.length`, the
available capacity after the window slide (may be negative). -/
def maxNumberOfMessages (rateLimit : Int) (window : List Int) : Int :=
  rateLimit - window.length

/-- Lines 152-155: `WaitTimeSeconds = Math.min(MAX_LONG_POLL_PERIOD,
Math.floor(context.getRemainingTimeInMillis() / 1000))`. -/
def waitTimeSeconds (maxLongPollPeriod remainingMillis : Int) : Int :=
  min maxLongPollPeriod (Int.fdiv remainingMillis 1000)

/-- Lines 190-208: each message whose body parses records one rate-limiter hit
(`rateHits.push(Date.now())`); `dispatchTime i` is the clock reading inside the
i-th dispatch closure.  The closures run synchronously in message order up to
their first await, so hits are appended in message order. -/
def dispatchHitTimes (messages : List Message) (parseOk : Message → Bool)
    (dispatchTime : Nat → Int) : List Int :=
  (messages.enum.filter (fun p => parseOk p.2)).map (fun p => dispatchTime p.1)

/-- Observable outcome of one `pollQueue` call: the updated rate window,
whether a receive was issued against the queue, which invocation requests were
issued, and whether the call rejects (any dispatch closure throwing makes the
`Promise.all` on line 189 reject). -/
structure PollOutcome where
  rateHits : List Int
  receiveIssued : Bool
  invocations : List Message
  raisedError : Bool
deriving DecidableEq, Repr

/-- Lines 145-212, one iteration of the poll loop.  `messages` is the oracle
result of `SQS.receiveMessage` (issued only when both guards pass), `parseOk`
whether a message body parses, `invokeOk` whether the Lambda invocation request
for a message is accepted, `dispatchTime` the clock inside each dispatch
closure.  A rejected invocation is still an issued invocation request. -/
def pollQueue (rateHits : List Int) (remainingMillis now : Int)
    (maxLongPollPeriod ratePeriod rateLimit : Int)
    (messages : List Message) (parseOk invokeOk : Message → Bool)
    (dispatchTime : Nat → Int) : PollOutcome :=
  if waitTimeSeconds maxLongPollPeriod remainingMillis ≤ 0 then
    -- line 156-159: "Out of time", return before touching the window
    ⟨rateHits, false, [], false⟩
  else
    let window := slideRateWindow rateHits now ratePeriod
    if maxNumberOfMessages rateLimit window ≤ 0 then
      -- line 165-168: "Yielding to limit rate", no queue I/O this tick
      ⟨window, false, [], false⟩
    else
      -- lines 171-211: receive, then fan out one invocation per parsed message
      ⟨window ++ dispatchHitTimes messages parseOk dispatchTime,
       true,
       messages.filter parseOk,
       messages.any (fun m => !parseOk m || !invokeOk m)⟩

example :
    pollQueue [0] 5000 1000 20 1000 2 [⟨"a"⟩, ⟨"b"⟩] (fun _ => true)
      (fun _ => true) (fun i => 1500 + i) =
    ⟨[1500, 1501], true, [⟨"a"⟩, ⟨"b"⟩], false⟩ := by decide

example :
    pollQueue [900, 950] 5000 1000 20 1000 2 [⟨"a"⟩] (fun _ => true)
      (fun _ => true) (fun _ => 1500) =
    ⟨[900, 950], false, [], false⟩ := by decide

example :
    pollQueue [900] 700 1000 20 1000 2 [⟨"a"⟩] (fun _ => true)
      (fun _ => true) (fun _ => 1500) =
    ⟨[900], false, [], false⟩ := by decide

/-! ## Execution lock (lines 77-102)

The lock lives in a DynamoDB table keyed by the `key` attribute.  The table is
modelled as a list of records with keyed-put semantics (a put replaces every
record with the same key, so the backend keeps keys unique).  The conditional
put on lines 81-93 uses the condition
`#key <> :key OR (#key = :key AND #value < :value)` with `:key` the mutex key
and `:value = Date.now()`: for an existing record at that primary key the
`#key` attribute equals `:key`, so the condition reduces to
`#value < Date.now()` (the stored expiry has passed); when no record exists the
conditional put succeeds (the no-record-or-expired idiom the expression
encodes).  -/

/-- A lock record `{key, value}` with `value` the expiry timestamp
(`Date.now() + EXECUTION_MUTEX_TTL` at acquisition, line 85). -/
structure LockRecord where
  key : String
  value : Int
deriving DecidableEq, Repr

/-- The config table holding lock records, keyed by `key`. -/
abbrev LockTable := List LockRecord

/-- The record stored for key `k`, if any. -/
def lookupLock (t : LockTable) (k : String) : Option Int :=
  (t.find? (fun r => r.key == k)).map (fun r => r.value)

/-- A DynamoDB `put` of `{key := k, value := v}`: replaces any record at that
primary key. -/
def putLock (t : LockTable) (k : String) (v : Int) : LockTable :=
  ⟨k, v⟩ :: t.filter (fun r => r.key != k)

/-- Lines 77-93: `acquireExecutionLock` performs the conditional put of
`{key, value: now + ttl}`; returns the new table and whether the condition was
met (`false` is the ConditionalCheckFailed / busy outcome, which leaves the
table unchanged). -/
def acquireExecutionLock (t : LockTable) (k : String) (now ttl : Int) :
    LockTable × Bool :=
  match lookupLock t k with
  | none => (putLock t k (now + ttl), true)
  | some v => if v < now then (putLock t k (now + ttl), true) else (t, false)

/-- Lines 95-102: `releaseExecutionLock` unconditionally deletes the record
for the mutex key. -/
def releaseExecutionLock (t : LockTable) (k : String) : LockTable :=
  t.filter (fun r => r.key != k)

/-- Tables reachable from the empty table by acquire and release steps of any
process instance at any times. -/
inductive LockReachable : LockTable → Prop
  | init : LockReachable []
  | acquire (t : LockTable) (k : String) (now ttl : Int) :
      LockReachable t → LockReachable (acquireExecutionLock t k now ttl).1
  | release (t : LockTable) (k : String) :
      LockReachable t → LockReachable (releaseExecutionLock t k)

/-- Number of records for key `k` that are valid (non-expired,
`expiresAtMillis >= now`) in table `t`. -/
def validLockCount (t : LockTable) (k : String) (now : Int) : Nat :=
  (t.filter (fun r => r.key == k && now ≤ r.value)).length

/-! ## Heartbeat reporter (lines 104-143)

State: the module-level `lastHeartbeat` (reset to `false` on handler entry,
line 19, hence `Option`) and the multiset of published heartbeat snapshots,
recorded here by their emission timestamps.  `sendHeartbeatMetrics` advances
`lastHeartbeat` on line 121 *before* the three external calls (queue-URL
lookup, depth query, metrics publish); `ok` says whether those calls all
succeed, and on failure the snapshot is not published but the timestamp
update has already happened. -/

structure HeartbeatState where
  lastHeartbeat : Option Int
  published : List Int
deriving DecidableEq, Repr

/-- Lines 116-143: unconditional emission.  Returns the new state and whether
the emission completed (`false` = one of the external calls threw). -/
def sendHeartbeatMetrics (s : HeartbeatState) (now : Int) (ok : Bool) :
    HeartbeatState × Bool :=
  if ok then (⟨some now, s.published ++ [now]⟩, true)
  else (⟨some now, s.published⟩, false)

/-- Lines 104-114: throttled emission.  Skips when a previous emission
happened within `minHeartbeatPeriod` of `now`; otherwise defers to
`sendHeartbeatMetrics`.  The returned flag is `false` exactly when an
attempted emission threw. -/
def maybeSendHeartbeatMetrics (s : HeartbeatState) (now : Int)
    (minHeartbeatPeriod : Int) (ok : Bool) : HeartbeatState × Bool :=
  match s.lastHeartbeat with
  | some last =>
      if now - last < minHeartbeatPeriod then (s, true)
      else sendHeartbeatMetrics s now ok
  | none => sendHeartbeatMetrics s now ok

/-! ## Entry point (lines 14-73)

The handler is modelled by the ordered trace of the externally visible actions
it performs.  `remaining i` is `context.getRemainingTimeInMillis()` at the
i-th evaluation of the `while` guard on line 37; `pollErr i` says whether the
i-th `pollQueue` call throws (line 41); `releaseOk` whether the release call
succeeds.  Heartbeat failures are caught and ignored (lines 29-33, 48-52,
68-72) so they do not influence the trace shape, with one exception embedded
below: a release failure returns before the final heartbeat (lines 62-64).
The loop is written with explicit fuel; fuel exhaustion yields an empty
suffix, and the termination theorem shows a finite fuel suffices whenever the
remaining-time readings strictly decrease. -/

/-- Externally visible actions of one handler invocation, in order. -/
inductive HandlerEvent where
  | acquireAttempt
  | initialHeartbeat
  | pollCall (i : Nat)
  | pollErrored (i : Nat)
  | periodicHeartbeat (i : Nat)
  | sleepDelay (i : Nat)
  | releaseAttempt
  | finalHeartbeat
deriving DecidableEq, Repr

/-- Line 37: the `while` guard
`Math.floor(context.getRemainingTimeInMillis() / 1000) >= 1`. -/
def handlerGuard (remaining : Nat → Int) (i : Nat) : Prop :=
  1 ≤ Int.fdiv (remaining i) 1000

instance (remaining : Nat → Int) (i : Nat) :
    Decidable (handlerGuard remaining i) := by
  unfold handlerGuard; infer_instance

/-- Lines 37-57: the poll loop body, as the events it emits plus whether it
ended by a `pollQueue` error (the catch on lines 43-46 returns from the whole
handler). -/
def handlerLoop (pollErr : Nat → Bool) (remaining : Nat → Int) :
    Nat → Nat → List HandlerEvent × Bool
  | _, 0 => ([], false)
  | i, fuel + 1 =>
    if handlerGuard remaining i then
      if pollErr i then ([.pollCall i, .pollErrored i], true)
      else
        let rest := handlerLoop pollErr remaining (i + 1) fuel
        ([.pollCall i, .periodicHeartbeat i, .sleepDelay i] ++ rest.1, rest.2)
    else ([], false)

/-- Lines 14-73: the handler.  On acquire failure it returns at once
(lines 23-26); on a `pollQueue` error it returns without releasing the lock or
sending the final heartbeat (lines 43-46); on release failure it returns
before the final heartbeat (lines 62-64). -/
def handler (acquireOk : Bool) (pollErr : Nat → Bool) (releaseOk : Bool)
    (remaining : Nat → Int) (fuel : Nat) : List HandlerEvent :=
  if !acquireOk then [.acquireAttempt]
  else
    let loop := handlerLoop pollErr remaining 0 fuel
    [.acquireAttempt, .initialHeartbeat] ++ loop.1 ++
      (if loop.2 then []
       else
         .releaseAttempt ::
           (if releaseOk then [.finalHeartbeat] else []))

example :
    handler true (fun _ => false) true
      (fun i => 2500 - 1200 * (i : Int)) 5 =
    [.acquireAttempt, .initialHeartbeat, .pollCall 0, .periodicHeartbeat 0,
     .sleepDelay 0, .pollCall 1, .periodicHeartbeat 1, .sleepDelay 1,
     .releaseAttempt, .finalHeartbeat] := by decide

example :
    handler true (fun _ => true) true (fun _ => 5000) 5 =
    [.acquireAttempt, .initialHeartbeat, .pollCall 0, .pollErrored 0] := by
  decide

/-! ## Rate-window reachability

The states the module-level `rateHits` list can reach within one invocation:
it starts empty (line 18) and is updated only by `pollQueue` iterations
(lines 163, 197).  The only constraint taken from an external contract is
that when a receive is issued, SQS returns at most `MaxNumberOfMessages`
messages. -/

/-- `rateHits` lists reachable within one poller invocation. -/
inductive RateWindowReachable (ratePeriod rateLimit : Int) : List Int → Prop
  | init : RateWindowReachable ratePeriod rateLimit []
  | step (hits : List Int) (remainingMillis now maxLongPollPeriod : Int)
      (messages : List Message) (parseOk invokeOk : Message → Bool)
      (dispatchTime : Nat → Int)
      (hsqs :
        (pollQueue hits remainingMillis now maxLongPollPeriod ratePeriod
            rateLimit messages parseOk invokeOk dispatchTime).receiveIssued =
          true →
        (messages.length : Int) ≤
          maxNumberOfMessages rateLimit (slideRateWindow hits now ratePeriod)) :
      RateWindowReachable ratePeriod rateLimit hits →
      RateWindowReachable ratePeriod rateLimit
        (pollQueue hits remainingMillis now maxLongPollPeriod ratePeriod
          rateLimit messages parseOk invokeOk dispatchTime).rateHits

/-- Number of recorded hits lying in the trailing window `(t - ratePeriod, t]`
at query time `t`. -/
def windowHitCount (ratePeriod : Int) (hits : List Int) (t : Int) : Nat :=
  (hits.filter (fun h => decide (t - ratePeriod < h) && decide (h ≤ t))).length

lemma windowHitCount_append (ratePeriod : Int) (a b : List Int) (t : Int) :
    windowHitCount ratePeriod (a ++ b) t =
      windowHitCount ratePeriod a t + windowHitCount ratePeriod b t := by
  simp [windowHitCount, List.filter_append]

lemma windowHitCount_le_length (ratePeriod : Int) (hits : List Int) (t : Int) :
    windowHitCount ratePeriod hits t ≤ hits.length :=
  List.length_filter_le _ _

lemma windowHitCount_filter_le (ratePeriod : Int) (p : Int → Bool)
    (hits : List Int) (t : Int) :
    windowHitCount ratePeriod (hits.filter p) t ≤
      windowHitCount ratePeriod hits t :=
  List.Sublist.length_le (List.Sublist.filter _ (List.filter_sublist hits))

lemma dispatchHitTimes_length_le (messages : List Message)
    (parseOk : Message → Bool) (dispatchTime : Nat → Int) :
    (dispatchHitTimes messages parseOk dispatchTime).length ≤
      messages.length := by
  calc (dispatchHitTimes messages parseOk dispatchTime).length
      = ((messages.enum.filter (fun p => parseOk p.2))).length := by
        simp [dispatchHitTimes]
    _ ≤ messages.enum.length := List.length_filter_le _ _
    _ = messages.length := List.enum_length

lemma rateWindowReachable_invariant (ratePeriod rateLimit : Int)
    (hRL : 0 ≤ rateLimit) (hits : List Int)
    (hreach : RateWindowReachable ratePeriod rateLimit hits) (t : Int) :
    (windowHitCount ratePeriod hits t : Int) ≤ rateLimit := by
  induction hreach with
  | init => simpa [windowHitCount] using hRL
  | step hits rem now mlpp msgs pOk iOk dt hsqs hr ih =>
      simp only [pollQueue]
      split
      · exact ih
      · split
        · rename_i hwait hcap
          -- yield branch: window only shrinks
          refine le_trans ?_ ih
          exact_mod_cast windowHitCount_filter_le ratePeriod _ hits t
        · rename_i hwait hcap
          -- receive branch: slid window plus at most capacity new hits
          have hrecv :
              (pollQueue hits rem now mlpp ratePeriod rateLimit msgs pOk iOk
                dt).receiveIssued = true := by
            simp only [pollQueue, if_neg hwait, if_neg hcap]
          have hb := hsqs hrecv
          have h1 : windowHitCount ratePeriod
              (slideRateWindow hits now ratePeriod ++
                dispatchHitTimes msgs pOk dt) t ≤
              (slideRateWindow hits now ratePeriod).length + msgs.length := by
            rw [windowHitCount_append]
            have := windowHitCount_le_length ratePeriod
              (slideRateWindow hits now ratePeriod) t
            have := windowHitCount_le_length ratePeriod
              (dispatchHitTimes msgs pOk dt) t
            have := dispatchHitTimes_length_le msgs pOk dt
            omega
          have h2 : ((slideRateWindow hits now ratePeriod).length : Int) +
              msgs.length ≤ rateLimit := by
            have := hb
            unfold maxNumberOfMessages at this
            omega
          calc (windowHitCount ratePeriod
                (slideRateWindow hits now ratePeriod ++
                  dispatchHitTimes msgs pOk dt) t : Int)
              ≤ ((slideRateWindow hits now ratePeriod).length : Int) +
                  msgs.length := by exact_mod_cast h1
            _ ≤ rateLimit := h2

/-! ## Shape lemmas for the three `pollQueue` branches -/

lemma pollQueue_out_of_time (rateHits : List Int)
    (remainingMillis now maxLongPollPeriod ratePeriod rateLimit : Int)
    (messages : List Message) (parseOk invokeOk : Message → Bool)
    (dispatchTime : Nat → Int)
    (h : waitTimeSeconds maxLongPollPeriod remainingMillis ≤ 0) :
    pollQueue rateHits remainingMillis now maxLongPollPeriod ratePeriod
      rateLimit messages parseOk invokeOk dispatchTime =
      ⟨rateHits, false, [], false⟩ := by
  simp [pollQueue, if_pos h]

lemma pollQueue_yield (rateHits : List Int)
    (remainingMillis now maxLongPollPeriod ratePeriod rateLimit : Int)
    (messages : List Message) (parseOk invokeOk : Message → Bool)
    (dispatchTime : Nat → Int)
    (h1 : ¬ waitTimeSeconds maxLongPollPeriod remainingMillis ≤ 0)
    (h2 : maxNumberOfMessages rateLimit
      (slideRateWindow rateHits now ratePeriod) ≤ 0) :
    pollQueue rateHits remainingMillis now maxLongPollPeriod ratePeriod
      rateLimit messages parseOk invokeOk dispatchTime =
      ⟨slideRateWindow rateHits now ratePeriod, false, [], false⟩ := by
  simp [pollQueue, if_neg h1, if_pos h2]

lemma pollQueue_receive (rateHits : List Int)
    (remainingMillis now maxLongPollPeriod ratePeriod rateLimit : Int)
    (messages : List Message) (parseOk invokeOk : Message → Bool)
    (dispatchTime : Nat → Int)
    (h1 : ¬ waitTimeSeconds maxLongPollPeriod remainingMillis ≤ 0)
    (h2 : ¬ maxNumberOfMessages rateLimit
      (slideRateWindow rateHits now ratePeriod) ≤ 0) :
    pollQueue rateHits remainingMillis now maxLongPollPeriod ratePeriod
      rateLimit messages parseOk invokeOk dispatchTime =
      ⟨slideRateWindow rateHits now ratePeriod ++
         dispatchHitTimes messages parseOk dispatchTime,
       true,
       messages.filter parseOk,
       messages.any (fun m => !parseOk m || !invokeOk m)⟩ := by
  simp [pollQueue, if_neg h1, if_neg h2]

lemma pollQueue_receiveIssued_iff (rateHits : List Int)
    (remainingMillis now maxLongPollPeriod ratePeriod rateLimit : Int)
    (messages : List Message) (parseOk invokeOk : Message → Bool)
    (dispatchTime : Nat → Int) :
    (pollQueue rateHits remainingMillis now maxLongPollPeriod ratePeriod
        rateLimit messages parseOk invokeOk dispatchTime).receiveIssued =
      true ↔
    0 < waitTimeSeconds maxLongPollPeriod remainingMillis ∧
      0 < maxNumberOfMessages rateLimit
        (slideRateWindow rateHits now ratePeriod) := by
  constructor
  · intro hrecv
    by_cases h1 : waitTimeSeconds maxLongPollPeriod remainingMillis ≤ 0
    · rw [pollQueue_out_of_time _ _ _ _ _ _ _ _ _ _ h1] at hrecv
      simp at hrecv
    · by_cases h2 : maxNumberOfMessages rateLimit
        (slideRateWindow rateHits now ratePeriod) ≤ 0
      · rw [pollQueue_yield _ _ _ _ _ _ _ _ _ _ h1 h2] at hrecv
        simp at hrecv
      · exact ⟨by omega, by omega⟩
  · intro ⟨h1, h2⟩
    rw [pollQueue_receive _ _ _ _ _ _ _ _ _ _ (by omega) (by omega)]

/-! ## Claim theorems -/

/-- Claim C2: starting from the empty window, along every sequence of
poll-loop iterations the number of rate-limiter hits inside any trailing
window of `RATE_PERIOD` milliseconds never exceeds `RATE_LIMIT`, and a
receive is only ever issued when the computed available capacity is strictly
positive. -/
theorem rateLimit_window_never_exceeded (ratePeriod rateLimit : Int)
    (hRL : 0 ≤ rateLimit) :
    (∀ hits, RateWindowReachable ratePeriod rateLimit hits →
      ∀ t, (windowHitCount ratePeriod hits t : Int) ≤ rateLimit) ∧
    (∀ hits remainingMillis now maxLongPollPeriod messages parseOk invokeOk
        dispatchTime,
      (pollQueue hits remainingMillis now maxLongPollPeriod ratePeriod
          rateLimit messages parseOk invokeOk dispatchTime).receiveIssued =
        true →
      0 < maxNumberOfMessages rateLimit
        (slideRateWindow hits now ratePeriod)) := by
  constructor
  · exact fun hits h t =>
      rateWindowReachable_invariant ratePeriod rateLimit hRL hits h t
  · intro hits rem now mlpp msgs pOk iOk dt hrecv
    exact ((pollQueue_receiveIssued_iff hits rem now mlpp ratePeriod rateLimit
      msgs pOk iOk dt).mp hrecv).2

/-- Witness for C2 at a concrete reachable window: after one iteration that
received two messages with `RATE_LIMIT = 2`, the window `[1500, 1501]` holds
at most two hits in any trailing 1000 ms window. -/
theorem rateLimit_window_never_exceeded_witness :
    (windowHitCount 1000 [1500, 1501] 1600 : Int) ≤ 2 := by
  have hstep := @RateWindowReachable.step 1000 2 [] 5000 1000 20
    [⟨"a"⟩, ⟨"b"⟩] (fun _ => true) (fun _ => true) (fun i => 1500 + i)
    (fun _ => by decide) RateWindowReachable.init
  have heq : (pollQueue [] 5000 1000 20 1000 2 [⟨"a"⟩, ⟨"b"⟩] (fun _ => true)
      (fun _ => true) (fun i => 1500 + i)).rateHits = [1500, 1501] := by
    decide
  exact (rateLimit_window_never_exceeded 1000 2 (by decide)).1 _
    (heq ▸ hstep) 1600

/-- Claim C6: the window slide at query time `now` prunes exactly the entries
with timestamp `≤ now - RATE_PERIOD` (multiset-exactly, stated via counts),
the computed capacity is `RATE_LIMIT` minus the count of remaining entries,
and when that capacity is `≤ 0` the iteration issues no receive (and hence no
invocations) for that tick. -/
theorem availableCapacity_prune_and_yield (rateHits : List Int)
    (remainingMillis now maxLongPollPeriod ratePeriod rateLimit : Int)
    (messages : List Message) (parseOk invokeOk : Message → Bool)
    (dispatchTime : Nat → Int) :
    (∀ h : Int, (slideRateWindow rateHits now ratePeriod).count h =
      if now - ratePeriod < h then rateHits.count h else 0) ∧
    maxNumberOfMessages rateLimit (slideRateWindow rateHits now ratePeriod) =
      rateLimit -
        ((slideRateWindow rateHits now ratePeriod).length : Int) ∧
    (maxNumberOfMessages rateLimit
        (slideRateWindow rateHits now ratePeriod) ≤ 0 →
      (pollQueue rateHits remainingMillis now maxLongPollPeriod ratePeriod
          rateLimit messages parseOk invokeOk dispatchTime).receiveIssued =
        false ∧
      (pollQueue rateHits remainingMillis now maxLongPollPeriod ratePeriod
          rateLimit messages parseOk invokeOk dispatchTime).invocations =
        []) := by
  refine ⟨?_, rfl, ?_⟩
  · intro h
    by_cases hin : now - ratePeriod < h
    · rw [if_pos hin]
      exact List.count_filter (by simpa using hin)
    · rw [if_neg hin]
      refine List.count_eq_zero.mpr (fun hmem => ?_)
      have := (List.mem_filter.mp hmem).2
      simp at this
      omega
  · intro hcap
    by_cases h1 : waitTimeSeconds maxLongPollPeriod remainingMillis ≤ 0
    · rw [pollQueue_out_of_time _ _ _ _ _ _ _ _ _ _ h1]
      exact ⟨rfl, rfl⟩
    · rw [pollQueue_yield _ _ _ _ _ _ _ _ _ _ h1 hcap]
      exact ⟨rfl, rfl⟩

/-- Witness for C6 at a concrete input: window `[900, 950]` at `now = 1000`
with `RATE_PERIOD = 1000` keeps both entries, capacity `2 - 2 = 0`, and the
iteration issues no receive. -/
theorem availableCapacity_prune_and_yield_witness :
    ((slideRateWindow [900, 950] 1000 1000).count 900 =
      if (1000 : Int) - 1000 < 900 then ([900, 950] : List Int).count 900
      else 0) ∧
    (pollQueue [900, 950] 5000 1000 20 1000 2 [⟨"a"⟩] (fun _ => true)
        (fun _ => true) (fun _ => 1500)).receiveIssued = false := by
  refine ⟨(availableCapacity_prune_and_yield [900, 950] 5000 1000 20 1000 2
    [⟨"a"⟩] (fun _ => true) (fun _ => true) (fun _ => 1500)).1 900,
    ((availableCapacity_prune_and_yield [900, 950] 5000 1000 20 1000 2
      [⟨"a"⟩] (fun _ => true) (fun _ => true) (fun _ => 1500)).2.2
      (by decide)).1⟩

/-- Claim C7: the requested long-poll wait is
`min(MAX_LONG_POLL_PERIOD, floor(remainingMillis / 1000))`; whenever a receive
is issued the wait is at least one second and (in milliseconds) at most the
remaining budget; and when the wait is `≤ 0` no receive is issued and, with a
positive `MAX_LONG_POLL_PERIOD`, the entry-point loop guard fails at every
remaining-time reading at most the current one, so the loop terminates. -/
theorem waitTimeSeconds_bounded (rateHits : List Int)
    (remainingMillis now maxLongPollPeriod ratePeriod rateLimit : Int)
    (messages : List Message) (parseOk invokeOk : Message → Bool)
    (dispatchTime : Nat → Int) :
    waitTimeSeconds maxLongPollPeriod remainingMillis =
      min maxLongPollPeriod (Int.fdiv remainingMillis 1000) ∧
    ((pollQueue rateHits remainingMillis now maxLongPollPeriod ratePeriod
        rateLimit messages parseOk invokeOk dispatchTime).receiveIssued =
      true →
      1 ≤ waitTimeSeconds maxLongPollPeriod remainingMillis ∧
      waitTimeSeconds maxLongPollPeriod remainingMillis * 1000 ≤
        remainingMillis) ∧
    (waitTimeSeconds maxLongPollPeriod remainingMillis ≤ 0 →
      (pollQueue rateHits remainingMillis now maxLongPollPeriod ratePeriod
          rateLimit messages parseOk invokeOk dispatchTime).receiveIssued =
        false ∧
      (1 ≤ maxLongPollPeriod →
        ∀ (r : Nat → Int) (i : Nat), r i ≤ remainingMillis →
          ¬ handlerGuard r i)) := by
  have hfd : ∀ a : Int, Int.fdiv a 1000 = a / 1000 := fun a =>
    Int.fdiv_eq_ediv a (by omega)
  refine ⟨rfl, ?_, ?_⟩
  · intro hrecv
    have h1 := ((pollQueue_receiveIssued_iff rateHits remainingMillis now
      maxLongPollPeriod ratePeriod rateLimit messages parseOk invokeOk
      dispatchTime).mp hrecv).1
    constructor
    · omega
    · have h2 : waitTimeSeconds maxLongPollPeriod remainingMillis ≤
          Int.fdiv remainingMillis 1000 := min_le_right _ _
      rw [hfd] at h2
      omega
  · intro hwait
    refine ⟨by rw [pollQueue_out_of_time _ _ _ _ _ _ _ _ _ _ hwait], ?_⟩
    intro hmlpp r i hr
    unfold waitTimeSeconds at hwait
    unfold handlerGuard
    rw [hfd] at hwait ⊢
    rw [min_le_iff] at hwait
    omega

/-- Witness for C7: with 5000 ms remaining and a 20 s cap, a receive is issued
with a 5 s wait, which is within the remaining budget. -/
theorem waitTimeSeconds_bounded_witness :
    1 ≤ waitTimeSeconds 20 5000 ∧ waitTimeSeconds 20 5000 * 1000 ≤ 5000 :=
  (waitTimeSeconds_bounded [] 5000 1000 20 1000 2 [] (fun _ => true)
    (fun _ => true) (fun _ => 1500)).2.1 (by decide)

/-- Number of `pollQueue` calls recorded in a handler trace. -/
def pollCallCount (trace : List HandlerEvent) : Nat :=
  trace.countP (fun e => match e with | .pollCall _ => true | _ => false)

lemma handlerGuard_remaining_ge (remaining : Nat → Int) (i : Nat)
    (h : handlerGuard remaining i) : 1000 ≤ remaining i := by
  unfold handlerGuard at h
  rw [Int.fdiv_eq_ediv _ (by omega)] at h
  omega

lemma remaining_le_sub (remaining : Nat → Int)
    (hdec : ∀ i, remaining (i + 1) < remaining i) :
    ∀ i : Nat, remaining i ≤ remaining 0 - i := by
  intro i
  induction i with
  | zero => simp
  | succ n ih =>
      have := hdec n
      push_cast
      push_cast at ih
      omega

lemma handlerLoop_pollCallCount (pollErr : Nat → Bool) (remaining : Nat → Int)
    (hdec : ∀ i, remaining (i + 1) < remaining i) :
    ∀ (fuel i : Nat),
      pollCallCount (handlerLoop pollErr remaining i fuel).1 ≤
        (remaining i).toNat := by
  intro fuel
  induction fuel with
  | zero => intro i; simp [handlerLoop, pollCallCount]
  | succ n ih =>
      intro i
      unfold handlerLoop
      split
      · rename_i hguard
        have h1000 := handlerGuard_remaining_ge remaining i hguard
        split
        · show pollCallCount [HandlerEvent.pollCall i,
            HandlerEvent.pollErrored i] ≤ (remaining i).toNat
          have hval : pollCallCount [HandlerEvent.pollCall i,
              HandlerEvent.pollErrored i] = 1 := rfl
          omega
        · show pollCallCount ([HandlerEvent.pollCall i,
              HandlerEvent.periodicHeartbeat i, HandlerEvent.sleepDelay i] ++
              (handlerLoop pollErr remaining (i + 1) n).1) ≤
            (remaining i).toNat
          have hrest := ih (i + 1)
          have hlt := hdec i
          have happ : pollCallCount ([HandlerEvent.pollCall i,
              HandlerEvent.periodicHeartbeat i, HandlerEvent.sleepDelay i] ++
              (handlerLoop pollErr remaining (i + 1) n).1) =
              1 + pollCallCount (handlerLoop pollErr remaining (i + 1) n).1 := by
            unfold pollCallCount
            rw [List.countP_append]
            rfl
          omega
      · simp [pollCallCount]

/-- Claim C8: with strictly decreasing remaining-time readings, every loop
index at which the guard still holds is below the initial budget, the guard
fails at some index (so the loop exits), and the number of `pollQueue` calls
the handler performs is bounded by the initial budget, for any fuel. -/
theorem poll_loop_terminates (acquireOk : Bool) (pollErr : Nat → Bool)
    (releaseOk : Bool) (remaining : Nat → Int) (fuel : Nat)
    (hdec : ∀ i, remaining (i + 1) < remaining i) :
    (∀ i, handlerGuard remaining i → (i : Int) < remaining 0) ∧
    (∃ n : Nat, ¬ handlerGuard remaining n) ∧
    pollCallCount (handler acquireOk pollErr releaseOk remaining fuel) ≤
      (remaining 0).toNat := by
  refine ⟨?_, ?_, ?_⟩
  · intro i hg
    have h1000 := handlerGuard_remaining_ge remaining i hg
    have := remaining_le_sub remaining hdec i
    omega
  · refine ⟨(remaining 0).toNat, ?_⟩
    intro hg
    have h1000 := handlerGuard_remaining_ge remaining (remaining 0).toNat
    have := remaining_le_sub remaining hdec (remaining 0).toNat
    have := h1000 hg
    omega
  · unfold handler
    split
    · simp [pollCallCount]
    · have hloop := handlerLoop_pollCallCount pollErr remaining hdec fuel 0
      simp only [pollCallCount, List.countP_append] at *
      split
      · simpa using hloop
      · split
        · simpa using hloop
        · simpa using hloop

/-- Witness for C8: with the budget sequence `2500 - 1200 i` the handler
performs at most 2500 poll calls (in fact two). -/
theorem poll_loop_terminates_witness :
    pollCallCount
        (handler true (fun _ => false) true
          (fun i => 2500 - 1200 * (i : Int)) 5) ≤
      ((2500 : Int) - 1200 * ((0 : Nat) : Int)).toNat :=
  (poll_loop_terminates true (fun _ => false) true
    (fun i => 2500 - 1200 * (i : Int)) 5
    (fun i => by push_cast; omega)).2.2

/-! ## Lock claims -/

/-- Number of records (valid or not) for key `k` in table `t`. -/
def lockKeyCount (t : LockTable) (k : String) : Nat :=
  (t.filter (fun r => r.key == k)).length

lemma lockKeyCount_putLock_self (t : LockTable) (k : String) (v : Int) :
    lockKeyCount (putLock t k v) k = 1 := by
  unfold lockKeyCount putLock
  rw [List.filter_cons_of_pos (by simp)]
  rw [List.filter_filter]
  have : (t.filter (fun r => (r.key == k) && (r.key != k))).length = 0 := by
    rw [List.length_eq_zero]
    refine List.filter_eq_nil_iff.mpr (fun r _ => ?_)
    by_cases h : r.key = k <;> simp [h]
  simp only [List.length_cons]
  omega

lemma lockKeyCount_putLock_other (t : LockTable) (k k' : String) (v : Int)
    (hne : k' ≠ k) : lockKeyCount (putLock t k v) k' ≤ lockKeyCount t k' := by
  unfold lockKeyCount putLock
  rw [List.filter_cons_of_neg (by simp [hne, Ne.symm])]
  exact List.Sublist.length_le
    (List.Sublist.filter _ (List.filter_sublist t))

lemma lockReachable_keyCount (t : LockTable) (h : LockReachable t)
    (k : String) : lockKeyCount t k ≤ 1 := by
  induction h with
  | init => simp [lockKeyCount]
  | acquire t k' now ttl _ ih =>
      unfold acquireExecutionLock
      by_cases hk : k = k'
      · subst hk
        cases hl : lookupLock t k with
        | none => simpa using Nat.le_of_eq (lockKeyCount_putLock_self t k _)
        | some v =>
            by_cases hv : v < now
            · simpa [hv] using Nat.le_of_eq (lockKeyCount_putLock_self t k _)
            · simpa [hv] using ih
      · cases hl : lookupLock t k' with
        | none =>
            simpa using le_trans
              (lockKeyCount_putLock_other t k' k _ hk) ih
        | some v =>
            by_cases hv : v < now
            · simpa [hv] using le_trans
                (lockKeyCount_putLock_other t k' k _ hk) ih
            · simpa [hv] using ih
  | release t k' _ ih =>
      exact le_trans (List.Sublist.length_le
        (List.Sublist.filter _ (List.filter_sublist t))) ih

lemma validLockCount_le_keyCount (t : LockTable) (k : String) (now : Int) :
    validLockCount t k now ≤ lockKeyCount t k := by
  unfold validLockCount lockKeyCount
  rw [← List.countP_eq_length_filter, ← List.countP_eq_length_filter]
  refine List.countP_mono_left (fun r _ h => ?_)
  revert h
  by_cases hk : r.key = k <;> simp [hk]

lemma lookupLock_putLock_self (t : LockTable) (k : String) (v : Int) :
    lookupLock (putLock t k v) k = some v := by
  simp [lookupLock, putLock, List.find?_cons_of_pos]

lemma acquireExecutionLock_free (t : LockTable) (k : String) (now ttl : Int)
    (hl : lookupLock t k = none) :
    acquireExecutionLock t k now ttl = (putLock t k (now + ttl), true) := by
  simp [acquireExecutionLock, hl]

lemma acquireExecutionLock_expired (t : LockTable) (k : String)
    (now ttl v : Int) (hl : lookupLock t k = some v) (hv : v < now) :
    acquireExecutionLock t k now ttl = (putLock t k (now + ttl), true) := by
  simp [acquireExecutionLock, hl, hv]

lemma acquireExecutionLock_busy (t : LockTable) (k : String)
    (now ttl v : Int) (hl : lookupLock t k = some v) (hv : ¬ v < now) :
    acquireExecutionLock t k now ttl = (t, false) := by
  simp [acquireExecutionLock, hl, hv]

/-- Claim C3: in every table reachable under the acquire/release step
relation, at most one valid (non-expired) lock record exists per key; and of
two acquire attempts for the same free key made before the first one's
expiry, exactly the first succeeds. -/
theorem lock_mutual_exclusion :
    (∀ t, LockReachable t → ∀ (k : String) (now : Int),
      validLockCount t k now ≤ 1) ∧
    (∀ (t : LockTable) (k : String) (now₁ now₂ ttl : Int),
      lookupLock t k = none → now₂ ≤ now₁ + ttl →
      (acquireExecutionLock t k now₁ ttl).2 = true ∧
      (acquireExecutionLock (acquireExecutionLock t k now₁ ttl).1 k now₂
        ttl).2 = false) := by
  constructor
  · intro t h k now
    exact le_trans (validLockCount_le_keyCount t k now)
      (lockReachable_keyCount t h k)
  · intro t k now₁ now₂ ttl hfree hbefore
    have h1 := acquireExecutionLock_free t k now₁ ttl hfree
    refine ⟨by rw [h1], ?_⟩
    rw [h1]
    have h2 := acquireExecutionLock_busy (putLock t k (now₁ + ttl)) k now₂ ttl
      (now₁ + ttl) (lookupLock_putLock_self t k (now₁ + ttl)) (by omega)
    rw [h2]

/-- Witness for C3: a singleton table reached by one acquire holds at most
one valid record, and a second acquire for the same key two units later
(before the 10-unit TTL expires) is rejected. -/
theorem lock_mutual_exclusion_witness :
    validLockCount [⟨"watchdog", 15⟩] "watchdog" 7 ≤ 1 ∧
    (acquireExecutionLock [] "watchdog" 5 10).2 = true ∧
    (acquireExecutionLock (acquireExecutionLock [] "watchdog" 5 10).1
      "watchdog" 7 10).2 = false := by
  have hreach := LockReachable.acquire [] "watchdog" 5 10 LockReachable.init
  have heq : (acquireExecutionLock [] "watchdog" 5 10).1 =
      [⟨"watchdog", 15⟩] := by decide
  refine ⟨lock_mutual_exclusion.1 _ (heq ▸ hreach) "watchdog" 7, ?_, ?_⟩
  · exact (lock_mutual_exclusion.2 [] "watchdog" 5 7 10 (by decide)
      (by decide)).1
  · exact (lock_mutual_exclusion.2 [] "watchdog" 5 7 10 (by decide)
      (by decide)).2

/-- Claim C4: the conditional write of `acquireExecutionLock` succeeds exactly
when no record exists for the key or the stored expiry is strictly below
`now`; on success it writes `{key, value: now + ttl}` (so an acquire after the
prior expiry has passed succeeds with no intervening release), and on failure
the table is unchanged (the caller observes busy). -/
theorem acquire_conditional_write (t : LockTable) (k : String)
    (now ttl : Int) :
    ((acquireExecutionLock t k now ttl).2 = true ↔
      lookupLock t k = none ∨
        ∃ v, lookupLock t k = some v ∧ v < now) ∧
    ((acquireExecutionLock t k now ttl).2 = true →
      (acquireExecutionLock t k now ttl).1 = putLock t k (now + ttl)) ∧
    ((acquireExecutionLock t k now ttl).2 = false →
      (acquireExecutionLock t k now ttl).1 = t) ∧
    (∀ v, lookupLock t k = some v → v < now →
      (acquireExecutionLock t k now ttl).2 = true) := by
  refine ⟨⟨?_, ?_⟩, ?_, ?_, ?_⟩
  · intro hsucc
    cases hl : lookupLock t k with
    | none => exact Or.inl rfl
    | some v =>
        by_cases hv : v < now
        · exact Or.inr ⟨v, rfl, hv⟩
        · rw [acquireExecutionLock_busy t k now ttl v hl hv] at hsucc
          exact absurd hsucc (by simp)
  · rintro (hl | ⟨v, hl, hv⟩)
    · rw [acquireExecutionLock_free t k now ttl hl]
    · rw [acquireExecutionLock_expired t k now ttl v hl hv]
  · intro hsucc
    cases hl : lookupLock t k with
    | none => rw [acquireExecutionLock_free t k now ttl hl]
    | some v =>
        by_cases hv : v < now
        · rw [acquireExecutionLock_expired t k now ttl v hl hv]
        · rw [acquireExecutionLock_busy t k now ttl v hl hv] at hsucc
          exact absurd hsucc (by simp)
  · intro hfail
    cases hl : lookupLock t k with
    | none =>
        rw [acquireExecutionLock_free t k now ttl hl] at hfail
        exact absurd hfail (by simp)
    | some v =>
        by_cases hv : v < now
        · rw [acquireExecutionLock_expired t k now ttl v hl hv] at hfail
          exact absurd hfail (by simp)
        · rw [acquireExecutionLock_busy t k now ttl v hl hv]
  · intro v hl hv
    rw [acquireExecutionLock_expired t k now ttl v hl hv]

/-- Witness for C4: on the empty table the acquire succeeds and writes
`{key, value := 15}`, and after expiry (`now = 20 > 15`) a new acquire
succeeds without any release. -/
theorem acquire_conditional_write_witness :
    (acquireExecutionLock [] "watchdog" 5 10).2 = true ∧
    (acquireExecutionLock [⟨"watchdog", 15⟩] "watchdog" 20 10).2 = true := by
  constructor
  · exact (acquire_conditional_write [] "watchdog" 5 10).1.mpr
      (Or.inl (by decide))
  · exact (acquire_conditional_write [⟨"watchdog", 15⟩] "watchdog" 20 10).2.2.2
      15 (by decide) (by decide)

/-! ## Dispatch fan-out -/

lemma snd_mem_of_mem_enum {α : Type} {l : List α} {p : Nat × α}
    (h : p ∈ l.enum) : p.2 ∈ l := by
  have hmap := List.mem_map_of_mem Prod.snd h
  rwa [List.enum_eq_enumFrom, List.enumFrom_map_snd] at hmap

/-- Claim C5: when a receive returns `N` (parseable) messages, the dispatcher
issues exactly `N` invocation requests, one per message, each recording one
rate-limiter hit; and the set of issued invocation requests does not depend on
which invocation requests fail, so a failure on one item never suppresses the
requests for its siblings (the failure only marks the iteration as errored). -/
theorem dispatch_fanout (rateHits : List Int)
    (remainingMillis now maxLongPollPeriod ratePeriod rateLimit : Int)
    (messages : List Message) (parseOk invokeOk invokeOk2 : Message → Bool)
    (dispatchTime : Nat → Int)
    (hparse : ∀ m ∈ messages, parseOk m = true)
    (hrecv : (pollQueue rateHits remainingMillis now maxLongPollPeriod
        ratePeriod rateLimit messages parseOk invokeOk
        dispatchTime).receiveIssued = true) :
    (pollQueue rateHits remainingMillis now maxLongPollPeriod ratePeriod
        rateLimit messages parseOk invokeOk dispatchTime).invocations =
      messages ∧
    (dispatchHitTimes messages parseOk dispatchTime).length =
      messages.length ∧
    (pollQueue rateHits remainingMillis now maxLongPollPeriod ratePeriod
        rateLimit messages parseOk invokeOk dispatchTime).rateHits =
      slideRateWindow rateHits now ratePeriod ++
        dispatchHitTimes messages parseOk dispatchTime ∧
    (pollQueue rateHits remainingMillis now maxLongPollPeriod ratePeriod
        rateLimit messages parseOk invokeOk dispatchTime).invocations =
      (pollQueue rateHits remainingMillis now maxLongPollPeriod ratePeriod
        rateLimit messages parseOk invokeOk2 dispatchTime).invocations := by
  obtain ⟨h1, h2⟩ := (pollQueue_receiveIssued_iff rateHits remainingMillis now
    maxLongPollPeriod ratePeriod rateLimit messages parseOk invokeOk
    dispatchTime).mp hrecv
  rw [pollQueue_receive rateHits remainingMillis now maxLongPollPeriod
    ratePeriod rateLimit messages parseOk invokeOk dispatchTime (by omega)
    (by omega)]
  rw [pollQueue_receive rateHits remainingMillis now maxLongPollPeriod
    ratePeriod rateLimit messages parseOk invokeOk2 dispatchTime (by omega)
    (by omega)]
  have hfilterEnum : messages.enum.filter (fun p => parseOk p.2) =
      messages.enum :=
    List.filter_eq_self.mpr
      (fun p hp => hparse p.2 (snd_mem_of_mem_enum hp))
  refine ⟨List.filter_eq_self.mpr (fun m hm => hparse m hm), ?_, rfl, rfl⟩
  unfold dispatchHitTimes
  rw [hfilterEnum, List.length_map, List.enum_length]

/-- Witness for C5: a batch of three messages where the invocation request
for the second is rejected still issues all three invocation requests and
records three hits. -/
theorem dispatch_fanout_witness :
    (pollQueue [] 5000 1000 20 1000 5 [⟨"m1"⟩, ⟨"m2"⟩, ⟨"m3"⟩]
        (fun _ => true) (fun m => m.body != "m2")
        (fun i => 1500 + i)).invocations =
      [⟨"m1"⟩, ⟨"m2"⟩, ⟨"m3"⟩] ∧
    (dispatchHitTimes [⟨"m1"⟩, ⟨"m2"⟩, ⟨"m3"⟩] (fun _ => true)
        (fun i => 1500 + i)).length = 3 := by
  have h := dispatch_fanout [] 5000 1000 20 1000 5
    [⟨"m1"⟩, ⟨"m2"⟩, ⟨"m3"⟩] (fun _ => true) (fun m => m.body != "m2")
    (fun _ => true) (fun i => 1500 + i) (by decide) (by decide)
  exact ⟨h.1, h.2.1⟩

/-! ## Heartbeat claims -/

/-- Claim C9: from the fresh per-invocation state, two throttled emissions
separated by less than `MIN_HEARTBEAT_PERIOD` publish exactly one heartbeat,
two separated by more publish exactly two; and the unconditional
`sendHeartbeatMetrics` (used at run start and end) bypasses the throttle
check — it always publishes (when its external calls succeed) and always
updates the last-emitted timestamp. -/
theorem heartbeat_throttling (t1 t2 minHeartbeatPeriod : Int) :
    (t2 - t1 < minHeartbeatPeriod →
      (maybeSendHeartbeatMetrics
          (maybeSendHeartbeatMetrics ⟨none, []⟩ t1 minHeartbeatPeriod true).1
          t2 minHeartbeatPeriod true).1.published = [t1]) ∧
    (minHeartbeatPeriod < t2 - t1 →
      (maybeSendHeartbeatMetrics
          (maybeSendHeartbeatMetrics ⟨none, []⟩ t1 minHeartbeatPeriod true).1
          t2 minHeartbeatPeriod true).1.published = [t1, t2]) ∧
    (∀ (s : HeartbeatState) (now : Int) (ok : Bool),
      (sendHeartbeatMetrics s now ok).1.lastHeartbeat = some now) ∧
    (∀ (s : HeartbeatState) (now : Int),
      (sendHeartbeatMetrics s now true).1.published =
        s.published ++ [now]) := by
  have hfirst : maybeSendHeartbeatMetrics ⟨none, []⟩ t1 minHeartbeatPeriod
      true = (⟨some t1, [t1]⟩, true) := rfl
  refine ⟨?_, ?_, ?_, ?_⟩
  · intro hlt
    rw [hfirst]
    simp [maybeSendHeartbeatMetrics, if_pos hlt]
  · intro hgt
    rw [hfirst]
    simp [maybeSendHeartbeatMetrics, if_neg (by omega :
      ¬ t2 - t1 < minHeartbeatPeriod), sendHeartbeatMetrics]
  · intro s now ok
    cases ok <;> rfl
  · intro s now
    rfl

/-- Witness for C9: calls at 0 and 50 with a 100 ms throttle publish once;
calls at 0 and 150 publish twice. -/
theorem heartbeat_throttling_witness :
    (maybeSendHeartbeatMetrics
        (maybeSendHeartbeatMetrics ⟨none, []⟩ 0 100 true).1 50 100
        true).1.published = [0] ∧
    (maybeSendHeartbeatMetrics
        (maybeSendHeartbeatMetrics ⟨none, []⟩ 0 100 true).1 150 100
        true).1.published = [0, 150] :=
  ⟨(heartbeat_throttling 0 50 100).1 (by decide),
   (heartbeat_throttling 0 150 100).2.1 (by decide)⟩

/-- Claim C10: `sendHeartbeatMetrics` advances the last-heartbeat timestamp
before its external calls, so a failed emission publishes nothing yet still
updates the throttle timestamp, and a subsequent throttled emission within
`MIN_HEARTBEAT_PERIOD` of the failed attempt is skipped (state unchanged, no
publish) even though no heartbeat was actually published. -/
theorem heartbeat_failed_emission (s : HeartbeatState)
    (now t2 minHeartbeatPeriod : Int) (ok2 : Bool) :
    (sendHeartbeatMetrics s now false).1.lastHeartbeat = some now ∧
    (sendHeartbeatMetrics s now false).1.published = s.published ∧
    (sendHeartbeatMetrics s now false).2 = false ∧
    (t2 - now < minHeartbeatPeriod →
      maybeSendHeartbeatMetrics (sendHeartbeatMetrics s now false).1 t2
          minHeartbeatPeriod ok2 =
        ((sendHeartbeatMetrics s now false).1, true)) := by
  refine ⟨rfl, rfl, rfl, ?_⟩
  intro hlt
  simp [sendHeartbeatMetrics, maybeSendHeartbeatMetrics, if_pos hlt]

/-- Witness for C10: after a failed emission at time 0, a throttled call at
time 50 with a 100 ms minimum period is skipped. -/
theorem heartbeat_failed_emission_witness :
    maybeSendHeartbeatMetrics (sendHeartbeatMetrics ⟨none, []⟩ 0 false).1 50
        100 true =
      ((sendHeartbeatMetrics ⟨none, []⟩ 0 false).1, true) :=
  (heartbeat_failed_emission ⟨none, []⟩ 0 50 100 true).2.2.2 (by decide)

/-! ## Entry-point error path (claim C1)

The catch block on lines 43-46 returns from the handler as soon as a
`pollQueue` call throws, so lines 60-72 (lock release and final heartbeat)
are never reached on that path. -/

lemma handlerLoop_no_cleanup (pollErr : Nat → Bool) (remaining : Nat → Int) :
    ∀ (fuel i : Nat),
      HandlerEvent.releaseAttempt ∉ (handlerLoop pollErr remaining i fuel).1 ∧
      HandlerEvent.finalHeartbeat ∉ (handlerLoop pollErr remaining i fuel).1 := by
  intro fuel
  induction fuel with
  | zero => intro i; simp [handlerLoop]
  | succ n ih =>
      intro i
      by_cases hg : handlerGuard remaining i
      · by_cases he : pollErr i
        · simp [handlerLoop, if_pos hg, he]
        · obtain ⟨h1, h2⟩ := ih (i + 1)
          simp only [handlerLoop, if_pos hg, he, Bool.false_eq_true,
            if_false]
          constructor
          · intro hmem
            simp [List.mem_append] at hmem
            exact h1 hmem
          · intro hmem
            simp [List.mem_append] at hmem
            exact h2 hmem
      · simp [handlerLoop, if_neg hg]

lemma handlerLoop_pollErrored (pollErr : Nat → Bool) (remaining : Nat → Int) :
    ∀ (fuel i j : Nat),
      HandlerEvent.pollErrored j ∈ (handlerLoop pollErr remaining i fuel).1 →
      (handlerLoop pollErr remaining i fuel).2 = true ∧ i ≤ j ∧
      ∀ m, j < m →
        HandlerEvent.pollCall m ∉ (handlerLoop pollErr remaining i fuel).1 := by
  intro fuel
  induction fuel with
  | zero => intro i j h; simp [handlerLoop] at h
  | succ n ih =>
      intro i j hmem
      by_cases hg : handlerGuard remaining i
      · by_cases he : pollErr i
        · simp only [handlerLoop, if_pos hg, he, if_true] at hmem ⊢
          simp at hmem
          subst hmem
          refine ⟨by simp, le_refl j, ?_⟩
          intro m hm hcall
          simp at hcall
          omega
        · simp only [handlerLoop, if_pos hg, he, Bool.false_eq_true,
            if_false] at hmem ⊢
          simp [List.mem_append] at hmem
          obtain ⟨hflag, hle, hlast⟩ := ih (i + 1) j hmem
          refine ⟨hflag, by omega, ?_⟩
          intro m hm hcall
          rcases List.mem_append.mp hcall with h | h
          · simp at h
            omega
          · exact hlast m hm h
      · simp [handlerLoop, if_neg hg] at hmem

/-- Counterexample to claim C1 as stated: with a `pollQueue` error on the
first iteration the handler trace records the error but contains no lock
release attempt — the catch block on lines 43-46 returns without cleanup. -/
theorem poller_error_skips_cleanup_counterexample :
    HandlerEvent.pollErrored 0 ∈
      handler true (fun _ => true) true (fun _ => 5000) 5 ∧
    HandlerEvent.releaseAttempt ∉
      handler true (fun _ => true) true (fun _ => 5000) 5 := by
  decide

/-- Claim C1 (amended): if an unexpected error is thrown from a `pollQueue`
call, the handler stops iterating (no later `pollQueue` call appears) and
returns immediately WITHOUT attempting lock release or the final heartbeat;
the lock is left to expire via its TTL. -/
theorem poller_error_skips_cleanup (acquireOk : Bool) (pollErr : Nat → Bool)
    (releaseOk : Bool) (remaining : Nat → Int) (fuel i : Nat)
    (herr : HandlerEvent.pollErrored i ∈
      handler acquireOk pollErr releaseOk remaining fuel) :
    HandlerEvent.releaseAttempt ∉
      handler acquireOk pollErr releaseOk remaining fuel ∧
    HandlerEvent.finalHeartbeat ∉
      handler acquireOk pollErr releaseOk remaining fuel ∧
    ∀ j, i < j → HandlerEvent.pollCall j ∉
      handler acquireOk pollErr releaseOk remaining fuel := by
  cases acquireOk with
  | false => simp [handler] at herr
  | true =>
      have hform : handler true pollErr releaseOk remaining fuel =
          [HandlerEvent.acquireAttempt, HandlerEvent.initialHeartbeat] ++
            (handlerLoop pollErr remaining 0 fuel).1 ++
            (if (handlerLoop pollErr remaining 0 fuel).2 then []
             else HandlerEvent.releaseAttempt ::
               (if releaseOk then [HandlerEvent.finalHeartbeat] else [])) :=
        rfl
      rw [hform] at herr ⊢
      by_cases hflag : (handlerLoop pollErr remaining 0 fuel).2 = true
      · simp only [hflag, if_true, List.append_nil] at herr ⊢
        simp [List.mem_append] at herr
        obtain ⟨_, _, hlast⟩ :=
          handlerLoop_pollErrored pollErr remaining fuel 0 i herr
        obtain ⟨hrel, hfin⟩ := handlerLoop_no_cleanup pollErr remaining fuel 0
        refine ⟨?_, ?_, ?_⟩
        · intro hmem
          simp [List.mem_append] at hmem
          exact hrel hmem
        · intro hmem
          simp [List.mem_append] at hmem
          exact hfin hmem
        · intro j hj hmem
          simp [List.mem_append] at hmem
          exact hlast j hj hmem
      · exfalso
        simp [List.mem_append] at herr
        exact hflag
          (handlerLoop_pollErrored pollErr remaining fuel 0 i herr).1

/-- Witness for the amended C1 at a concrete run: an error on iteration 0
leaves no release attempt in the trace. -/
theorem poller_error_skips_cleanup_witness :
    HandlerEvent.releaseAttempt ∉
      handler true (fun _ => true) true (fun _ => 5000) 5 :=
  (poller_error_skips_cleanup true (fun _ => true) true (fun _ => 5000) 5 0
    (by decide)).1

end WatchdogProxy
